import Mathlib

/-!
Shallow embedding of the merge-resolution core of `src/main.rs` (bingle).

Conventions:
* Bevy `Entity` handles are modelled as `Nat`.
* `f32` quantities (positions, growth progress, radii) are modelled as `ℚ`;
  all arithmetic the claims exercise is exact in `f32` as well.
* Bevy `Commands` are deferred: a system queues commands and the world is
  mutated only after the system finishes.  We model the queue explicitly
  (`Cmd`, `applyCmds`): `squash_balls` reads the world state taken at the
  start of the pass and returns the queued commands, mirroring the engine.
* Rendering, meshes, materials, RNG rolls and the physics solver are external
  collaborators and are not modelled; only their observable effects on the
  simulation state are.
-/

namespace Bingle

/-- Stable entity handle (Bevy `Entity`). -/
abbrev Entity := Nat

/-- Constants from `src/main.rs` with `UNIVERSAL_SCALE = 1`. -/
def STRIKE_LIMIT : Int := 4

def GROW_DURATION_SECONDS : ℚ := 2

def DROPPABLE_RANGE : Int := 4

def BALL_BASE_SIZE : ℚ := 7

def BALL_LEVEL_SIZE : ℚ := 7

def BUCKET_WIDTH : ℚ := 300

def BARRIER_PADDING : ℚ := 100

def BALL_DROPPER_OFFSET : ℚ := 190

def DROP_SPAM_Y_BLOCK_OFFSET : ℚ := 100

def DROP_SPAM_X_BLOCK_DISTANCE : ℚ := 35

/-- `enum BallType { Simple(i32), Special }`. -/
inductive BallType where
  | Simple (level : Int)
  | Special
deriving DecidableEq, Repr

/-- `BallType::size` from the source. -/
def BallType.size : BallType → ℚ
  | .Simple l => BALL_BASE_SIZE + (l : ℚ) * BALL_LEVEL_SIZE
  | .Special => 10

/-- Planar translation of an entity (the `z` component is irrelevant). -/
structure Transform where
  x : ℚ
  y : ℚ
deriving DecidableEq, Repr

/-- Components attached to one ball entity: its settled `BallType`, the
optional `BallTarget`/`BallProgress` growth components and its collider
radius. -/
structure BallRec where
  ballType : BallType
  target : Option Int
  progress : Option ℚ
  transform : Transform
  radius : ℚ
deriving DecidableEq, Repr

/-- The `Game` resource (the dropper is modelled separately). -/
structure Game where
  strikes : Int
  over : Bool
  interpolated_score : Int
  score : Int
deriving DecidableEq, Repr

/-- The ball registry, as the `balls` query sees it at the start of a system
run. -/
abbrev BallStore := Entity → Option BallRec

/-- Effective match type of a ball: `Simple(target)` while growing, else the
settled type (the `match_type` computation building `ball_types`). -/
def matchType (r : BallRec) : BallType :=
  match r.target with
  | some t => BallType.Simple t
  | none => r.ballType

/-- Lookup in the `ball_types` map built at the start of `squash_balls`. -/
def effType (store : BallStore) (e : Entity) : Option (BallType × Transform) :=
  (store e).map fun r => (matchType r, r.transform)

/-- A deferred Bevy command queued by `squash_balls`: `despawn` for
`commands.entity(e).despawn()`, `growth` for the pair of
`insert(BallTarget)` / `insert(BallProgress)` calls on the kept ball. -/
inductive Cmd where
  | despawn (e : Entity)
  | growth (e : Entity) (target : Int) (progress : ℚ)
deriving DecidableEq, Repr

/-- The kept ball of a `growth` command, if any. -/
def Cmd.growthTargetOf : Cmd → Option Entity
  | .growth e _ _ => some e
  | .despawn _ => none

/-- Entities that receive growth components from a command queue. -/
def growthTargets (cmds : List Cmd) : List Entity :=
  cmds.filterMap Cmd.growthTargetOf

/-- Loop state of the `squash_balls` pass: the `visited` marker set, the
`to_remove` contact set, the queued commands, and the running score/strike
counters.  `merged` records which `to_remove` entries came from the merge
branch (the rest came from the barrier branch); it is trace information, the
source keeps a single `to_remove` set. -/
structure SquashAcc where
  visited : List Entity
  toRemove : List (Entity × Entity)
  merged : List (Entity × Entity)
  cmds : List Cmd
  score : Int
  strikes : Int
deriving DecidableEq, Repr

/-- New `BallProgress` value for the kept ball: halved if it was already
growing, else `0`. -/
def mergeProgress (r : BallRec) : ℚ :=
  match r.progress with
  | some p => p * (1 / 2)
  | none => 0

/-- Merge arm of the contact match in `squash_balls`: both members resolved to
`Simple` levels `la`, `lb`.  The lower member (ties to the first) is kept.
`removed ∈ live` models `commands.entity(removed)`, which requires the handle
to exist in the world at queue time; `live` is the entity set at the start of
the pass (commands are deferred, so it does not change during the pass). -/
def squashMergeGo (store : BallStore) (live : List Entity) (acc : SquashAcc)
    (c : Entity × Entity) (replaced removed : Entity) (la lb : Int) :
    Option SquashAcc :=
  if replaced ∈ acc.visited then some acc
  else if removed ∈ live then
    match store replaced with
    | some rb =>
      some { acc with
        visited := replaced :: acc.visited,
        cmds := acc.cmds ++
          [Cmd.despawn removed, Cmd.growth replaced (la + 1) (mergeProgress rb)],
        toRemove := acc.toRemove.insert c,
        merged := acc.merged.insert c,
        score := acc.score + (la + lb) * 11 }
    | none =>
      some { acc with
        visited := replaced :: acc.visited,
        cmds := acc.cmds ++ [Cmd.despawn removed],
        score := acc.score + (la + lb) * 11 }
  else none

/-- Dispatch of the merge arm: on equal levels, keep the lower member (ties
to the first). -/
def squashMergeCase (store : BallStore) (live : List Entity) (acc : SquashAcc)
    (c : Entity × Entity) (la lb : Int) (ta tb : Transform) : Option SquashAcc :=
  if la = lb then
    squashMergeGo store live acc c
      (if min ta.y tb.y = ta.y then c.1 else c.2)
      (if min ta.y tb.y = ta.y then c.2 else c.1) la lb
  else some acc

/-- Default arm of the contact match: if one member is a barrier, the other is
despawned (`commands.get_entity(..).unwrap()` requires it to be live at queue
time) and a strike is added. -/
def squashBarrierCase (barriers live : List Entity) (acc : SquashAcc)
    (c : Entity × Entity) : Option SquashAcc :=
  if c.1 ∈ barriers then
    if c.2 ∈ live then
      some { acc with
        cmds := acc.cmds ++ [Cmd.despawn c.2],
        toRemove := acc.toRemove.insert c,
        strikes := acc.strikes + 1 }
    else none
  else if c.2 ∈ barriers then
    if c.1 ∈ live then
      some { acc with
        cmds := acc.cmds ++ [Cmd.despawn c.1],
        toRemove := acc.toRemove.insert c,
        strikes := acc.strikes + 1 }
    else none
  else some acc

/-- One iteration of the contact loop in `squash_balls`. -/
def squashStep (store : BallStore) (barriers live : List Entity)
    (acc : SquashAcc) (c : Entity × Entity) : Option SquashAcc :=
  match effType store c.1, effType store c.2 with
  | some (BallType.Simple la, ta), some (BallType.Simple lb, tb) =>
    squashMergeCase store live acc c la lb ta tb
  | _, _ => squashBarrierCase barriers live acc c

/-- The contact loop of `squash_balls`; `none` models a panic. -/
def squashLoop (store : BallStore) (barriers live : List Entity) :
    SquashAcc → List (Entity × Entity) → Option SquashAcc
  | acc, [] => some acc
  | acc, c :: rest =>
    match squashStep store barriers live acc c with
    | some acc' => squashLoop store barriers live acc' rest
    | none => none

/-- Initial loop state of a pass. -/
def initAcc (game : Game) : SquashAcc :=
  { visited := [], toRemove := [], merged := [], cmds := [],
    score := game.score, strikes := game.strikes }

/-- Result of one `squash_balls` pass: the updated `Game`, the contact set
with `to_remove` subtracted, the queued deferred commands and the trace
fields. -/
structure SquashResult where
  game : Game
  contacts : List (Entity × Entity)
  cmds : List Cmd
  visited : List Entity
  merged : List (Entity × Entity)
  toRemove : List (Entity × Entity)
deriving DecidableEq, Repr

/-- The `squash_balls` system: one merge-resolution pass over the active
contact set. -/
def squash_balls (store : BallStore) (barriers live : List Entity)
    (contacts : List (Entity × Entity)) (game : Game) : Option SquashResult :=
  (squashLoop store barriers live (initAcc game) contacts).map fun acc =>
    { game := { game with score := acc.score, strikes := acc.strikes },
      contacts := contacts.filter fun c => decide (c ∉ acc.toRemove),
      cmds := acc.cmds,
      visited := acc.visited,
      merged := acc.merged,
      toRemove := acc.toRemove }

/-- Applying one deferred command to the world after the pass.  Despawning an
already-despawned handle is a no-op (Bevy logs and continues); inserting
components on a despawned entity is a fatal error (Bevy error B0003),
modelled as `none`. -/
def applyCmd (store : BallStore) : Cmd → Option BallStore
  | .despawn e => some fun x => if x = e then none else store x
  | .growth e t p =>
    match store e with
    | some r =>
      some fun x =>
        if x = e then some { r with target := some t, progress := some p }
        else store x
    | none => none

/-- Apply a command queue in order. -/
def applyCmds (store : BallStore) : List Cmd → Option BallStore
  | [] => some store
  | cmd :: rest =>
    match applyCmd store cmd with
    | some s' => applyCmds s' rest
    | none => none

/-- One `grow_system` update for a ball carrying `BallTarget target` and
`BallProgress progress`: advance the progress, then either collapse to the
settled target type or interpolate the radius. -/
structure GrowOut where
  ballType : BallType
  growth : Option (Int × ℚ)
  radius : ℚ
deriving DecidableEq, Repr

/-- Per-ball body of `grow_system`. -/
def growBall (dt : ℚ) (bt : BallType) (target : Int) (progress : ℚ) : GrowOut :=
  let p := progress + dt / GROW_DURATION_SECONDS
  if 1 ≤ p then
    { ballType := BallType.Simple target, growth := none,
      radius := (BallType.Simple target).size }
  else
    { ballType := bt, growth := some (target, p),
      radius := bt.size + ((BallType.Simple target).size - bt.size) * p }

/-- The `grow_system` pass: every ball with both growth components is
advanced; others are untouched. -/
def grow_system (dt : ℚ) (store : BallStore) : BallStore := fun e =>
  (store e).map fun r =>
    match r.target, r.progress with
    | some t, some p =>
      let out := growBall dt r.ballType t p
      { r with ballType := out.ballType,
               target := out.growth.map Prod.fst,
               progress := out.growth.map Prod.snd,
               radius := out.radius }
    | _, _ => r

/-- Rust `f32::clamp`. -/
def rustClamp (v lo hi : ℚ) : ℚ :=
  if v < lo then lo else if v > hi then hi else v

/-- Observable outcome of the `click` handler: the spawned ball (type and drop
position), or a restart request when the game is over.  The RNG reroll and
preview-mesh swap are external-collaborator effects and are not modelled. -/
structure ClickOut where
  spawned : Option (BallType × ℚ × ℚ)
  restartRequested : Bool
deriving DecidableEq, Repr

/-- The clamp of the requested drop x into the container span. -/
def clickPosition (clickX : ℚ) : ℚ :=
  rustClamp clickX
    (-(BUCKET_WIDTH * (1 / 2)) - BARRIER_PADDING * (1 / 2))
    (BUCKET_WIDTH * (1 / 2) + BARRIER_PADDING * (1 / 2))

/-- The spam-block predicate of `click` over all existing balls. -/
def clickBlocked (position : ℚ) (balls : List Transform) : Bool :=
  balls.any fun t =>
    decide (DROP_SPAM_Y_BLOCK_OFFSET ≤ t.y) &&
    decide (position - t.x < DROP_SPAM_X_BLOCK_DISTANCE)

/-- The `click` function: clamp the requested x, test the spam-block
predicate against all existing balls, and spawn if not blocked; when the game
is over, request a restart instead. -/
def click (over : Bool) (nextType : BallType) (clickX : ℚ)
    (balls : List Transform) : ClickOut :=
  if over = false then
    if clickBlocked (clickPosition clickX) balls = false then
      { spawned := some (nextType, clickPosition clickX, BALL_DROPPER_OFFSET),
        restartRequested := false }
    else
      { spawned := none, restartRequested := false }
  else
    { spawned := none, restartRequested := true }

/-- The `check_game_state` system; the boolean is the `GameOverEvent`. -/
def check_game_state (g : Game) : Game × Bool :=
  if STRIKE_LIMIT ≤ g.strikes ∧ g.over = false then
    ({ g with over := true }, true)
  else (g, false)

/-- The `update_score_system` easing step. -/
def update_score_system (g : Game) : Game :=
  if 10 ≤ g.score - g.interpolated_score then
    { g with interpolated_score := g.interpolated_score + 10 }
  else
    { g with interpolated_score := g.score }

/-- Effect of `restart_game_system` on the `Game` resource: score, strikes
and the over flag are reset; `interpolated_score` is not.  (The system also
despawns all balls and drains the contact set.) -/
def restart_game_system (g : Game) : Game :=
  { g with score := 0, strikes := 0, over := false }

/-- Rapier collision notifications consumed by `collision_system`. -/
inductive CollisionEvent where
  | Started (a b : Entity)
  | Stopped (a b : Entity)
deriving DecidableEq, Repr

/-- One event of `collision_system`: `Started` inserts the reported tuple
into the contact set, `Stopped` removes exactly the reported tuple. -/
def collision_step (contacts : List (Entity × Entity)) :
    CollisionEvent → List (Entity × Entity)
  | .Started a b => contacts.insert (a, b)
  | .Stopped a b => contacts.erase (a, b)

/-- The `collision_system` pass over the drained event queue. -/
def collision_system (contacts : List (Entity × Entity))
    (events : List CollisionEvent) : List (Entity × Entity) :=
  events.foldl collision_step contacts

/-- A contact whose two members both resolve to `Simple` balls of one common
effective level. -/
def isEqualSimplePair (store : BallStore) (c : Entity × Entity) : Prop :=
  ∃ L ta tb, effType store c.1 = some (BallType.Simple L, ta) ∧
    effType store c.2 = some (BallType.Simple L, tb)

/-- Invariant of the `squash_balls` loop state: growth is queued for pairwise
distinct kept balls, the visited set is exactly the set of kept balls, and
equal-level contacts reach `to_remove` only through the merge branch. -/
def SquashInv (store : BallStore) (acc : SquashAcc) : Prop :=
  (growthTargets acc.cmds).Nodup ∧
  (∀ e, e ∈ growthTargets acc.cmds ↔ e ∈ acc.visited) ∧
  (∀ c ∈ acc.toRemove, c ∈ acc.merged ∨ ¬ isEqualSimplePair store c)

/-- Concrete fixture: three settled level-1 balls stacked at heights 0, 5, 10
(entities 0, 1, 2). -/
def cexStore : BallStore := fun e =>
  if e = 0 then some ⟨BallType.Simple 1, none, none, ⟨0, 0⟩, 14⟩
  else if e = 1 then some ⟨BallType.Simple 1, none, none, ⟨0, 5⟩, 14⟩
  else if e = 2 then some ⟨BallType.Simple 1, none, none, ⟨0, 10⟩, 14⟩
  else none

/-- Concrete fixture: a fresh game. -/
def cexGame : Game :=
  { strikes := 0, over := false, interpolated_score := 0, score := 0 }

/-- Result of the pass over contacts `[(0,1),(0,2)]` on `cexStore`: the second
contact shares kept ball 0 and is deferred by the visited guard. -/
def defRes : SquashResult :=
  { game := { strikes := 0, over := false, interpolated_score := 0, score := 22 },
    contacts := [(0, 2)],
    cmds := [Cmd.despawn 1, Cmd.growth 0 2 0],
    visited := [0],
    merged := [(0, 1)],
    toRemove := [(0, 1)] }

/-- Result of the pass over contacts `[(0,1),(1,2)]` on `cexStore`: ball 1 is
removed by the first merge and then kept by the second, and the score is
credited for both merges. -/
def chainRes : SquashResult :=
  { game := { strikes := 0, over := false, interpolated_score := 0, score := 44 },
    contacts := [],
    cmds := [Cmd.despawn 1, Cmd.growth 0 2 0, Cmd.despawn 2, Cmd.growth 1 2 0],
    visited := [1, 0],
    merged := [(1, 2), (0, 1)],
    toRemove := [(1, 2), (0, 1)] }

/-- Concrete fixture: a settled level-1 ball at height 0 (entity 0). -/
def wr1 : BallRec := ⟨BallType.Simple 1, none, none, ⟨0, 0⟩, 14⟩

/-- Concrete fixture: a settled level-1 ball at height 5 (entity 1). -/
def wr2 : BallRec := ⟨BallType.Simple 1, none, none, ⟨0, 5⟩, 14⟩

/-- Concrete fixture: a ball already growing toward level 1 with progress 1/2
(entity 0, lower than `wr2`). -/
def wg1 : BallRec := ⟨BallType.Simple 0, some 1, some (1 / 2), ⟨0, 0⟩, 7⟩

/-- Two-ball store for the merge witnesses. -/
def wStore : BallStore := fun e =>
  if e = 0 then some wr1 else if e = 1 then some wr2 else none

/-- Two-ball store whose lower ball is mid-growth, for the halving witness. -/
def wgStore : BallStore := fun e =>
  if e = 0 then some wg1 else if e = 1 then some wr2 else none

/-- Concrete fixture: a ball growing from level 1 toward level 2,
half way through. -/
def growWr : BallRec := ⟨BallType.Simple 1, some 2, some (1 / 2), ⟨0, 0⟩, 14⟩

/-- One-ball store for the growth witness. -/
def growWStore : BallStore := fun e => if e = 0 then some growWr else none

section Lemmas

/-- Evaluation of a `squash_balls` pass over a single equal-level contact. -/
lemma squash_single (store : BallStore) (barriers live : List Entity)
    (e1 e2 : Entity) (r1 r2 : BallRec) (L : Int) (game : Game)
    (h1 : store e1 = some r1) (h2 : store e2 = some r2)
    (hm1 : matchType r1 = BallType.Simple L) (hm2 : matchType r2 = BallType.Simple L)
    (hl1 : e1 ∈ live) (hl2 : e2 ∈ live) :
    squash_balls store barriers live [(e1, e2)] game = some
      { game := { game with score := game.score + (L + L) * 11 },
        contacts := [],
        cmds := [Cmd.despawn (if r1.transform.y ≤ r2.transform.y then e2 else e1),
          Cmd.growth (if r1.transform.y ≤ r2.transform.y then e1 else e2) (L + 1)
            (mergeProgress (if r1.transform.y ≤ r2.transform.y then r1 else r2))],
        visited := [if r1.transform.y ≤ r2.transform.y then e1 else e2],
        merged := [(e1, e2)],
        toRemove := [(e1, e2)] } := by
  have he1 : effType store e1 = some (BallType.Simple L, r1.transform) := by
    simp [effType, h1, hm1]
  have he2 : effType store e2 = some (BallType.Simple L, r2.transform) := by
    simp [effType, h2, hm2]
  by_cases hy : r1.transform.y ≤ r2.transform.y
  · have hmin : min r1.transform.y r2.transform.y = r1.transform.y := min_eq_left hy
    simp [squash_balls, squashLoop, squashStep, he1, he2, squashMergeCase,
      squashMergeGo, initAcc, hmin, h1, hl1, hl2, hy, List.insert]
  · have hlt : r2.transform.y < r1.transform.y := lt_of_not_le hy
    have hmin : min r1.transform.y r2.transform.y = r2.transform.y :=
      min_eq_right (le_of_lt hlt)
    have hne : ¬ (min r1.transform.y r2.transform.y = r1.transform.y) := by
      rw [hmin]; exact ne_of_lt hlt
    simp [squash_balls, squashLoop, squashStep, he1, he2, squashMergeCase,
      squashMergeGo, initAcc, hne, h2, hl1, hl2, hy, List.insert]

/-- Applying the command queue of a single merge: the removed ball disappears,
the kept ball receives the growth components. -/
lemma applyCmds_merge (store : BallStore) (kept removed : Entity) (rk : BallRec)
    (t : Int) (p : ℚ) (hk : store kept = some rk) (hne : kept ≠ removed) :
    applyCmds store [Cmd.despawn removed, Cmd.growth kept t p] =
      some fun x =>
        if x = kept then some { rk with target := some t, progress := some p }
        else if x = removed then none else store x := by
  simp [applyCmds, applyCmd, hne, hk]

/-- Growth targets distribute over queue concatenation. -/
lemma growthTargets_append (l1 l2 : List Cmd) :
    growthTargets (l1 ++ l2) = growthTargets l1 ++ growthTargets l2 := by
  simp [growthTargets]

/-- The initial loop state satisfies the pass invariant. -/
lemma initAcc_inv (store : BallStore) (game : Game) :
    SquashInv store (initAcc game) := by
  refine ⟨List.nodup_nil, fun e => ?_, fun x hx => ?_⟩
  · simp [initAcc, growthTargets]
  · exact absurd hx (by simp [initAcc])

/-- The inner merge body preserves the pass invariant and never decreases
strikes, provided the kept handle is a ball of the snapshot. -/
lemma squashMergeGo_inv (store : BallStore) (live : List Entity) (acc : SquashAcc)
    (c : Entity × Entity) (replaced removed : Entity) (la lb : Int)
    (acc' : SquashAcc) (hrep : ∃ rb, store replaced = some rb)
    (h : squashMergeGo store live acc c replaced removed la lb = some acc')
    (hinv : SquashInv store acc) :
    SquashInv store acc' ∧ acc.strikes ≤ acc'.strikes := by
  unfold squashMergeGo at h
  by_cases hv : replaced ∈ acc.visited
  · rw [if_pos hv] at h
    cases h
    exact ⟨hinv, le_rfl⟩
  · rw [if_neg hv] at h
    by_cases hl : removed ∈ live
    · rw [if_pos hl] at h
      obtain ⟨rb, hrb⟩ := hrep
      rw [hrb] at h
      cases h
      have hgt : growthTargets (acc.cmds ++
          [Cmd.despawn removed, Cmd.growth replaced (la + 1) (mergeProgress rb)]) =
          growthTargets acc.cmds ++ [replaced] := by
        rw [growthTargets_append]; rfl
      have hnotin : replaced ∉ growthTargets acc.cmds := fun hmem =>
        hv ((hinv.2.1 replaced).mp hmem)
      refine ⟨⟨?_, ?_, ?_⟩, le_rfl⟩
      · show (growthTargets (acc.cmds ++ _)).Nodup
        rw [hgt]
        refine List.nodup_append.mpr ⟨hinv.1, List.nodup_singleton _, ?_⟩
        intro a ha hmem
        rw [List.mem_singleton] at hmem
        exact hnotin (hmem ▸ ha)
      · intro e
        show e ∈ growthTargets (acc.cmds ++ _) ↔ e ∈ replaced :: acc.visited
        rw [hgt, List.mem_append, List.mem_singleton, List.mem_cons, hinv.2.1 e]
        tauto
      · intro x hx
        show x ∈ acc.merged.insert c ∨ ¬ isEqualSimplePair store x
        rw [List.mem_insert_iff] at hx ⊢
        rcases hx with hx | hx
        · exact Or.inl (Or.inl hx)
        · rcases hinv.2.2 x hx with hm | hm
          · exact Or.inl (Or.inr hm)
          · exact Or.inr hm
    · rw [if_neg hl] at h
      exact absurd h (by simp)

/-- The merge arm preserves the pass invariant and never decreases strikes. -/
lemma squashMergeCase_inv (store : BallStore) (live : List Entity)
    (acc : SquashAcc) (c : Entity × Entity) (la lb : Int) (ta tb : Transform)
    (acc' : SquashAcc)
    (he1 : effType store c.1 = some (BallType.Simple la, ta))
    (he2 : effType store c.2 = some (BallType.Simple lb, tb))
    (h : squashMergeCase store live acc c la lb ta tb = some acc')
    (hinv : SquashInv store acc) :
    SquashInv store acc' ∧ acc.strikes ≤ acc'.strikes := by
  unfold squashMergeCase at h
  by_cases heq : la = lb
  · rw [if_pos heq] at h
    refine squashMergeGo_inv store live acc c _ _ la lb acc' ?_ h hinv
    by_cases hm : min ta.y tb.y = ta.y
    · rw [if_pos hm]
      obtain ⟨r, hr, _⟩ := Option.map_eq_some'.mp he1
      exact ⟨r, hr⟩
    · rw [if_neg hm]
      obtain ⟨r, hr, _⟩ := Option.map_eq_some'.mp he2
      exact ⟨r, hr⟩
  · rw [if_neg heq] at h
    cases h
    exact ⟨hinv, le_rfl⟩

/-- The barrier arm preserves the pass invariant and never decreases strikes,
given that the contact is not an equal-level `Simple` pair. -/
lemma squashBarrierCase_inv (store : BallStore) (barriers live : List Entity)
    (acc : SquashAcc) (c : Entity × Entity) (acc' : SquashAcc)
    (hns : ¬ isEqualSimplePair store c)
    (h : squashBarrierCase barriers live acc c = some acc')
    (hinv : SquashInv store acc) :
    SquashInv store acc' ∧ acc.strikes ≤ acc'.strikes := by
  have hupd : ∀ (e : Entity),
      SquashInv store { acc with
        cmds := acc.cmds ++ [Cmd.despawn e],
        toRemove := acc.toRemove.insert c,
        strikes := acc.strikes + 1 } := by
    intro e
    have hgt : growthTargets (acc.cmds ++ [Cmd.despawn e]) =
        growthTargets acc.cmds := by
      rw [growthTargets_append]
      simp [growthTargets, Cmd.growthTargetOf]
    refine ⟨?_, ?_, ?_⟩
    · show (growthTargets (acc.cmds ++ _)).Nodup
      rw [hgt]; exact hinv.1
    · intro x
      show x ∈ growthTargets (acc.cmds ++ _) ↔ x ∈ acc.visited
      rw [hgt]; exact hinv.2.1 x
    · intro x hx
      rw [List.mem_insert_iff] at hx
      rcases hx with hx | hx
      · exact Or.inr (hx ▸ hns)
      · exact hinv.2.2 x hx
  unfold squashBarrierCase at h
  by_cases h1 : c.1 ∈ barriers
  · rw [if_pos h1] at h
    by_cases h2 : c.2 ∈ live
    · rw [if_pos h2] at h
      cases h
      exact ⟨hupd c.2, by show acc.strikes ≤ acc.strikes + 1; omega⟩
    · rw [if_neg h2] at h
      exact absurd h (by simp)
  · rw [if_neg h1] at h
    by_cases h2 : c.2 ∈ barriers
    · rw [if_pos h2] at h
      by_cases h3 : c.1 ∈ live
      · rw [if_pos h3] at h
        cases h
        exact ⟨hupd c.1, by show acc.strikes ≤ acc.strikes + 1; omega⟩
      · rw [if_neg h3] at h
        exact absurd h (by simp)
    · rw [if_neg h2] at h
      cases h
      exact ⟨hinv, le_rfl⟩

/-- One loop iteration preserves the pass invariant and never decreases
strikes. -/
lemma squashStep_inv (store : BallStore) (barriers live : List Entity)
    (acc : SquashAcc) (c : Entity × Entity) (acc' : SquashAcc)
    (h : squashStep store barriers live acc c = some acc')
    (hinv : SquashInv store acc) :
    SquashInv store acc' ∧ acc.strikes ≤ acc'.strikes := by
  unfold squashStep at h
  rcases he1 : effType store c.1 with _ | ⟨bt1, t1⟩ <;>
    rcases he2 : effType store c.2 with _ | ⟨bt2, t2⟩
  · rw [he1, he2] at h
    refine squashBarrierCase_inv store barriers live acc c acc' ?_ h hinv
    rintro ⟨L, ta, tb, ha, hb⟩
    rw [he1] at ha
    exact Option.noConfusion ha
  · rw [he1, he2] at h
    refine squashBarrierCase_inv store barriers live acc c acc' ?_ h hinv
    rintro ⟨L, ta, tb, ha, hb⟩
    rw [he1] at ha
    exact Option.noConfusion ha
  · rw [he1, he2] at h
    cases bt1 <;>
      refine squashBarrierCase_inv store barriers live acc c acc' ?_ h hinv <;>
      rintro ⟨L, ta, tb, ha, hb⟩ <;> rw [he2] at hb <;> exact Option.noConfusion hb
  · cases bt1 <;> cases bt2 <;> rw [he1, he2] at h
    case Simple.Simple la lb =>
      exact squashMergeCase_inv store live acc c la lb t1 t2 acc' he1 he2 h hinv
    case Simple.Special la =>
      refine squashBarrierCase_inv store barriers live acc c acc' ?_ h hinv
      rintro ⟨L, ta, tb, ha, hb⟩
      rw [he2] at hb
      simp at hb
    case Special.Simple lb =>
      refine squashBarrierCase_inv store barriers live acc c acc' ?_ h hinv
      rintro ⟨L, ta, tb, ha, hb⟩
      rw [he1] at ha
      simp at ha
    case Special.Special =>
      refine squashBarrierCase_inv store barriers live acc c acc' ?_ h hinv
      rintro ⟨L, ta, tb, ha, hb⟩
      rw [he1] at ha
      simp at ha

/-- The whole contact loop preserves the pass invariant and never decreases
strikes. -/
lemma squashLoop_inv (store : BallStore) (barriers live : List Entity)
    (contacts : List (Entity × Entity)) :
    ∀ (acc acc' : SquashAcc),
      squashLoop store barriers live acc contacts = some acc' →
      SquashInv store acc →
      SquashInv store acc' ∧ acc.strikes ≤ acc'.strikes := by
  induction contacts with
  | nil =>
    intro acc acc' h hinv
    unfold squashLoop at h
    cases h
    exact ⟨hinv, le_rfl⟩
  | cons c rest ih =>
    intro acc acc' h hinv
    unfold squashLoop at h
    cases hst : squashStep store barriers live acc c with
    | none => rw [hst] at h; exact absurd h (by simp)
    | some acc1 =>
      rw [hst] at h
      have h1 := squashStep_inv store barriers live acc c acc1 hst hinv
      have h2 := ih acc1 acc' h h1.1
      exact ⟨h2.1, le_trans h1.2 h2.2⟩

/-- The inner merge body cannot panic when the removed handle is live at the
start of the pass and the kept handle is a ball. -/
lemma squashMergeGo_isSome (store : BallStore) (live : List Entity)
    (acc : SquashAcc) (c : Entity × Entity) (replaced removed : Entity)
    (la lb : Int) (hrem : removed ∈ live)
    (hrep : ∃ rb, store replaced = some rb) :
    (squashMergeGo store live acc c replaced removed la lb).isSome = true := by
  unfold squashMergeGo
  by_cases hv : replaced ∈ acc.visited
  · simp [hv]
  · obtain ⟨rb, hrb⟩ := hrep
    simp [hv, hrem, hrb]

/-- The merge arm cannot panic when both members are live balls. -/
lemma squashMergeCase_isSome (store : BallStore) (live : List Entity)
    (acc : SquashAcc) (c : Entity × Entity) (la lb : Int) (ta tb : Transform)
    (he1 : effType store c.1 = some (BallType.Simple la, ta))
    (he2 : effType store c.2 = some (BallType.Simple lb, tb))
    (hc1 : c.1 ∈ live) (hc2 : c.2 ∈ live) :
    (squashMergeCase store live acc c la lb ta tb).isSome = true := by
  unfold squashMergeCase
  by_cases heq : la = lb
  · rw [if_pos heq]
    refine squashMergeGo_isSome store live acc c _ _ la lb ?_ ?_
    · by_cases hm : min ta.y tb.y = ta.y
      · rw [if_pos hm]; exact hc2
      · rw [if_neg hm]; exact hc1
    · by_cases hm : min ta.y tb.y = ta.y
      · rw [if_pos hm]
        obtain ⟨r, hr, _⟩ := Option.map_eq_some'.mp he1
        exact ⟨r, hr⟩
      · rw [if_neg hm]
        obtain ⟨r, hr, _⟩ := Option.map_eq_some'.mp he2
        exact ⟨r, hr⟩
  · simp [heq]

/-- The barrier arm cannot panic when both members are live. -/
lemma squashBarrierCase_isSome (barriers live : List Entity) (acc : SquashAcc)
    (c : Entity × Entity) (hc1 : c.1 ∈ live) (hc2 : c.2 ∈ live) :
    (squashBarrierCase barriers live acc c).isSome = true := by
  unfold squashBarrierCase
  by_cases h1 : c.1 ∈ barriers
  · simp [h1, hc2]
  · by_cases h2 : c.2 ∈ barriers <;> simp [h1, h2, hc1]

/-- One loop iteration cannot panic when both contact members were live at the
start of the pass. -/
lemma squashStep_isSome (store : BallStore) (barriers live : List Entity)
    (acc : SquashAcc) (c : Entity × Entity)
    (hc1 : c.1 ∈ live) (hc2 : c.2 ∈ live) :
    (squashStep store barriers live acc c).isSome = true := by
  unfold squashStep
  rcases he1 : effType store c.1 with _ | ⟨bt1, t1⟩ <;>
    rcases he2 : effType store c.2 with _ | ⟨bt2, t2⟩
  · exact squashBarrierCase_isSome barriers live acc c hc1 hc2
  · exact squashBarrierCase_isSome barriers live acc c hc1 hc2
  · cases bt1 <;> exact squashBarrierCase_isSome barriers live acc c hc1 hc2
  · cases bt1 <;> cases bt2
    case Simple.Simple la lb =>
      exact squashMergeCase_isSome store live acc c la lb t1 t2 he1 he2 hc1 hc2
    case Simple.Special =>
      exact squashBarrierCase_isSome barriers live acc c hc1 hc2
    case Special.Simple =>
      exact squashBarrierCase_isSome barriers live acc c hc1 hc2
    case Special.Special =>
      exact squashBarrierCase_isSome barriers live acc c hc1 hc2

/-- The whole contact loop cannot panic when every contact member was live at
the start of the pass. -/
lemma squashLoop_isSome (store : BallStore) (barriers live : List Entity)
    (contacts : List (Entity × Entity)) :
    ∀ acc, (∀ c ∈ contacts, c.1 ∈ live ∧ c.2 ∈ live) →
      (squashLoop store barriers live acc contacts).isSome = true := by
  induction contacts with
  | nil => intro acc _; simp [squashLoop]
  | cons c rest ih =>
    intro acc h
    have hc := h c (List.mem_cons_self c rest)
    have hs := squashStep_isSome store barriers live acc c hc.1 hc.2
    unfold squashLoop
    cases hst : squashStep store barriers live acc c with
    | none => rw [hst] at hs; exact absurd hs (by simp)
    | some acc1 =>
      exact ih acc1 fun c' hc' => h c' (List.mem_cons_of_mem c hc')

end Lemmas

section Claims

/-- C2 (amended, merge of an isolated pair): for a resolution pass over a
single active contact between two distinct `Simple` balls of common effective
level `L`, exactly one of the pair is destroyed, the survivor's growth target
is `L + 1`, the score grows by exactly `22 * L`, strikes and the over flag
are untouched, the contact leaves the active set, and the member with the
smaller vertical coordinate (ties to the first member) is the one kept. -/
theorem merge_pair_resolution (store : BallStore) (barriers live : List Entity)
    (e1 e2 : Entity) (r1 r2 : BallRec) (L : Int) (game : Game)
    (h1 : store e1 = some r1) (h2 : store e2 = some r2) (hne : e1 ≠ e2)
    (hm1 : matchType r1 = BallType.Simple L) (hm2 : matchType r2 = BallType.Simple L)
    (hl1 : e1 ∈ live) (hl2 : e2 ∈ live) :
    ∃ res store',
      squash_balls store barriers live [(e1, e2)] game = some res ∧
      applyCmds store res.cmds = some store' ∧
      store' (if r1.transform.y ≤ r2.transform.y then e2 else e1) = none ∧
      (∃ rk, store' (if r1.transform.y ≤ r2.transform.y then e1 else e2) = some rk ∧
        rk.target = some (L + 1)) ∧
      res.game.score = game.score + 22 * L ∧
      res.game.strikes = game.strikes ∧
      res.game.over = game.over ∧
      res.contacts = [] := by
  have hs := squash_single store barriers live e1 e2 r1 r2 L game
    h1 h2 hm1 hm2 hl1 hl2
  by_cases hy : r1.transform.y ≤ r2.transform.y
  · simp only [hy, if_true] at hs ⊢
    refine ⟨_, _, hs,
      applyCmds_merge store e1 e2 r1 (L + 1) (mergeProgress r1) h1 hne,
      ?_, ?_, ?_, ?_, ?_, ?_⟩
    · simp [hne, Ne.symm hne]
    · exact ⟨{ r1 with target := some (L + 1), progress := some (mergeProgress r1) },
        by simp, rfl⟩
    · show game.score + (L + L) * 11 = game.score + 22 * L
      ring
    · rfl
    · rfl
    · rfl
  · simp only [hy, if_false] at hs ⊢
    refine ⟨_, _, hs,
      applyCmds_merge store e2 e1 r2 (L + 1) (mergeProgress r2) h2 (Ne.symm hne),
      ?_, ?_, ?_, ?_, ?_, ?_⟩
    · simp [hne, Ne.symm hne]
    · exact ⟨{ r2 with target := some (L + 1), progress := some (mergeProgress r2) },
        by simp, rfl⟩
    · show game.score + (L + L) * 11 = game.score + 22 * L
      ring
    · rfl
    · rfl
    · rfl

/-- C2 witness: two settled level-1 balls at heights 0 and 5; the lower one
(entity 0) is kept with target 2, the other despawns, score grows by 22. -/
theorem merge_pair_resolution_witness :
    ∃ res store',
      squash_balls wStore [] [0, 1] [(0, 1)] cexGame = some res ∧
      applyCmds wStore res.cmds = some store' ∧
      store' (if wr1.transform.y ≤ wr2.transform.y then 1 else 0) = none ∧
      (∃ rk, store' (if wr1.transform.y ≤ wr2.transform.y then 0 else 1) = some rk ∧
        rk.target = some (1 + 1)) ∧
      res.game.score = cexGame.score + 22 * 1 ∧
      res.game.strikes = cexGame.strikes ∧
      res.game.over = cexGame.over ∧
      res.contacts = [] :=
  merge_pair_resolution wStore [] [0, 1] 0 1 wr1 wr2 1 cexGame rfl rfl
    (by decide) rfl rfl (by decide) (by decide)

/-- C2 counterexample: with three level-1 balls and active contacts
`[(0,1),(0,2)]` both sharing the lowest ball 0, the contact `(0,2)` is an
active contact between two `Simple` balls of equal effective level, yet after
one resolution pass neither of its members is destroyed, ball 2 gets no
growth target, and the total score delta is 22, not 22 per such contact. -/
theorem merge_invariant_cex :
    effType cexStore 0 = some (BallType.Simple 1, ⟨0, 0⟩) ∧
    effType cexStore 2 = some (BallType.Simple 1, ⟨0, 10⟩) ∧
    ((0, 2) ∈ ([(0, 1), (0, 2)] : List (Entity × Entity))) ∧
    ((squash_balls cexStore [] [0, 1, 2] [(0, 1), (0, 2)] cexGame).bind fun res =>
        (applyCmds cexStore res.cmds).map fun s =>
          ((s 0).isSome, (s 2).isSome, (s 2).map fun r => r.target, res.game.score))
      = some (true, true, some none, 22) := by
  refine ⟨by decide, by decide, by decide, by decide⟩

/-- C4: in a merge, the kept ball's queued growth components carry target
`L + 1`; its progress is half its previous progress when it was already
growing, and `0` when it was not. -/
theorem merge_progress_update (store : BallStore) (barriers live : List Entity)
    (e1 e2 : Entity) (r1 r2 : BallRec) (L : Int) (game : Game)
    (h1 : store e1 = some r1) (h2 : store e2 = some r2) (hne : e1 ≠ e2)
    (hm1 : matchType r1 = BallType.Simple L) (hm2 : matchType r2 = BallType.Simple L)
    (hl1 : e1 ∈ live) (hl2 : e2 ∈ live) :
    ∃ res store' rk,
      squash_balls store barriers live [(e1, e2)] game = some res ∧
      applyCmds store res.cmds = some store' ∧
      store' (if r1.transform.y ≤ r2.transform.y then e1 else e2) = some rk ∧
      rk.target = some (L + 1) ∧
      (∀ p, (if r1.transform.y ≤ r2.transform.y then r1 else r2).progress = some p →
        rk.progress = some (p * (1 / 2))) ∧
      ((if r1.transform.y ≤ r2.transform.y then r1 else r2).progress = none →
        rk.progress = some 0) := by
  have hs := squash_single store barriers live e1 e2 r1 r2 L game
    h1 h2 hm1 hm2 hl1 hl2
  by_cases hy : r1.transform.y ≤ r2.transform.y
  · simp only [hy, if_true] at hs ⊢
    refine ⟨_, _, { r1 with target := some (L + 1), progress := some (mergeProgress r1) },
      hs, applyCmds_merge store e1 e2 r1 (L + 1) (mergeProgress r1) h1 hne,
      by simp, rfl, ?_, ?_⟩
    · intro p hp
      simp [mergeProgress, hp]
    · intro hp
      simp [mergeProgress, hp]
  · simp only [hy, if_false] at hs ⊢
    refine ⟨_, _, { r2 with target := some (L + 1), progress := some (mergeProgress r2) },
      hs, applyCmds_merge store e2 e1 r2 (L + 1) (mergeProgress r2) h2 (Ne.symm hne),
      by simp, rfl, ?_, ?_⟩
    · intro p hp
      simp [mergeProgress, hp]
    · intro hp
      simp [mergeProgress, hp]

/-- C4 witness: the kept ball was growing with progress 1/2; after the merge
its queued progress is 1/2 · 1/2 = 1/4 and its target is 2. -/
theorem merge_progress_update_witness :
    ∃ res store' rk,
      squash_balls wgStore [] [0, 1] [(0, 1)] cexGame = some res ∧
      applyCmds wgStore res.cmds = some store' ∧
      store' (if wg1.transform.y ≤ wr2.transform.y then 0 else 1) = some rk ∧
      rk.target = some (1 + 1) ∧
      (∀ p, (if wg1.transform.y ≤ wr2.transform.y then wg1 else wr2).progress = some p →
        rk.progress = some (p * (1 / 2))) ∧
      ((if wg1.transform.y ≤ wr2.transform.y then wg1 else wr2).progress = none →
        rk.progress = some 0) :=
  merge_progress_update wgStore [] [0, 1] 0 1 wg1 wr2 1 cexGame rfl rfl
    (by decide) rfl rfl (by decide) (by decide)

/-- C3: with the game running and the requested x inside the clamp span, a
drop is rejected exactly when some existing ball sits at or above height 100
and the signed difference `requested_x - ball_x` is below 35.  The predicate
is one-sided, not an absolute distance. -/
theorem drop_spam_block (nextType : BallType) (rx : ℚ) (balls : List Transform)
    (hlo : -200 ≤ rx) (hhi : rx ≤ 200) :
    ((click false nextType rx balls).spawned = none ↔
      ∃ t ∈ balls, DROP_SPAM_Y_BLOCK_OFFSET ≤ t.y ∧
        rx - t.x < DROP_SPAM_X_BLOCK_DISTANCE) := by
  have hb1 : (-(BUCKET_WIDTH * (1 / 2)) - BARRIER_PADDING * (1 / 2) : ℚ) = -200 := by
    norm_num [BUCKET_WIDTH, BARRIER_PADDING]
  have hb2 : (BUCKET_WIDTH * (1 / 2) + BARRIER_PADDING * (1 / 2) : ℚ) = 200 := by
    norm_num [BUCKET_WIDTH, BARRIER_PADDING]
  have hclamp : clickPosition rx = rx := by
    rw [clickPosition, hb1, hb2, rustClamp, if_neg (not_lt.mpr hlo),
      if_neg (not_lt.mpr hhi)]
  have hiff : clickBlocked rx balls = true ↔
      ∃ t ∈ balls, DROP_SPAM_Y_BLOCK_OFFSET ≤ t.y ∧
        rx - t.x < DROP_SPAM_X_BLOCK_DISTANCE := by
    simp [clickBlocked, List.any_eq_true]
  cases hb : clickBlocked (clickPosition rx) balls
  · rw [hclamp] at hb
    constructor
    · intro h
      simp [click, hclamp, hb] at h
    · intro hex
      rw [(hiff.mpr hex)] at hb
      exact absurd hb (by simp)
  · rw [hclamp] at hb
    constructor
    · intro _
      exact hiff.mp hb
    · intro _
      simp [click, hclamp, hb]

/-- C3 witness: the spec's literal scenario — an existing ball at (50, 150)
blocks a drop requested at x = 10, since 10 - 50 = -40 < 35. -/
theorem drop_spam_block_witness :
    (click false (BallType.Simple 1) 10 [⟨50, 150⟩]).spawned = none :=
  (drop_spam_block (BallType.Simple 1) 10 [⟨50, 150⟩] (by norm_num) (by norm_num)).mpr
    ⟨⟨50, 150⟩, by simp, by norm_num [DROP_SPAM_Y_BLOCK_OFFSET],
      by norm_num [DROP_SPAM_X_BLOCK_DISTANCE]⟩

/-- C5: for a ball carrying growth components, one `grow_system` tick advances
progress by `dt / GROW_DURATION_SECONDS`; if the new progress reaches 1 the
ball collapses to settled `Simple(target)` with both growth components
dropped and radius set to the exact target size; otherwise the growth
components stay, the radius is the linear interpolation between the settled
type's size and the target size at the new progress, and the new progress
lies in `[0, 1)`. -/
theorem grow_tick (dt p : ℚ) (t : Int) (store : BallStore) (e : Entity) (r : BallRec)
    (hr : store e = some r) (ht : r.target = some t) (hpr : r.progress = some p)
    (hp : 0 ≤ p) (hdt : 0 ≤ dt) :
    (1 ≤ p + dt / GROW_DURATION_SECONDS →
      grow_system dt store e = some { r with
        ballType := BallType.Simple t, target := none, progress := none,
        radius := (BallType.Simple t).size }) ∧
    (p + dt / GROW_DURATION_SECONDS < 1 →
      grow_system dt store e = some { r with
        progress := some (p + dt / GROW_DURATION_SECONDS),
        radius := r.ballType.size +
          ((BallType.Simple t).size - r.ballType.size) *
            (p + dt / GROW_DURATION_SECONDS) } ∧
      0 ≤ p + dt / GROW_DURATION_SECONDS ∧
      p + dt / GROW_DURATION_SECONDS < 1) := by
  constructor
  · intro h
    simp [grow_system, hr, ht, hpr, growBall, h]
  · intro h
    have hnot : ¬ (1 ≤ p + dt / GROW_DURATION_SECONDS) := not_le.mpr h
    refine ⟨by simp [grow_system, hr, ht, hpr, growBall, hnot], ?_, h⟩
    have h2 : (0 : ℚ) ≤ dt / GROW_DURATION_SECONDS :=
      div_nonneg hdt (by norm_num [GROW_DURATION_SECONDS])
    linarith

/-- C5 witness: a ball at settled level 1 growing toward 2 with progress 1/2
advanced by dt = 1/2 reaches progress 3/4 < 1 and the interpolated radius. -/
theorem grow_tick_witness :
    grow_system (1 / 2) growWStore 0 = some { growWr with
      progress := some ((1 / 2 : ℚ) + (1 / 2) / GROW_DURATION_SECONDS),
      radius := growWr.ballType.size +
        ((BallType.Simple 2).size - growWr.ballType.size) *
          ((1 / 2 : ℚ) + (1 / 2) / GROW_DURATION_SECONDS) } ∧
    (0 : ℚ) ≤ (1 / 2 : ℚ) + (1 / 2) / GROW_DURATION_SECONDS ∧
    (1 / 2 : ℚ) + (1 / 2) / GROW_DURATION_SECONDS < 1 :=
  (grow_tick (1 / 2) (1 / 2) 2 growWStore 0 growWr rfl rfl rfl
      (by norm_num) (by norm_num)).2
    (by norm_num [GROW_DURATION_SECONDS])

/-- C8 counterexample: `restart_game_system` resets the score to 0 but leaves
`interpolated_score` untouched, so in the state right after a restart of a
game with interpolated score 30 the invariant `interpolated_score ≤ score`
fails. -/
theorem interp_le_score_cex :
    (restart_game_system ⟨4, true, 30, 37⟩).score <
      (restart_game_system ⟨4, true, 30, 37⟩).interpolated_score := by
  decide

/-- C8 (amended): after every `update_score_system` run — and hence at every
tick boundary — `interpolated_score ≤ score`; the system steps
`interpolated_score` toward `score` by a fixed step of 10, jumping straight
to `score` when the remaining delta is below the step; it touches nothing
else.  A restart can transiently violate the inequality until the same
tick's `update_score_system` run. -/
theorem score_easing (g : Game) :
    (update_score_system g).interpolated_score ≤ (update_score_system g).score ∧
    (update_score_system g).score = g.score ∧
    (update_score_system g).strikes = g.strikes ∧
    (update_score_system g).over = g.over ∧
    (update_score_system g).interpolated_score =
      (if 10 ≤ g.score - g.interpolated_score then g.interpolated_score + 10
       else g.score) := by
  unfold update_score_system
  by_cases h : 10 ≤ g.score - g.interpolated_score <;> simp [h]
  omega

/-- C9 counterexample: contacts are stored as the ordered tuples the engine
reports; a `Stopped` event with the two handles swapped does not remove the
stored pair, so after `Started (1,2)` and `Stopped (2,1)` the pair `(1,2)`
is still in the active set. -/
theorem contact_unordered_cex :
    (1, 2) ∈ collision_system []
      [CollisionEvent.Started 1 2, CollisionEvent.Stopped 2 1] := by
  decide

/-- C9 (amended): `Started (a,b)` inserts exactly the ordered pair `(a,b)`
into the contact set; `Stopped (a,b)` removes exactly the ordered pair
`(a,b)` (and hence not a pair stored in the opposite order); a `Stopped` for
an absent pair is a silent no-op; ingestion has no effect beyond set
membership. -/
theorem contact_tracker_semantics (contacts : List (Entity × Entity))
    (a b : Entity) (x : Entity × Entity) (hnd : contacts.Nodup) :
    (x ∈ collision_system contacts [CollisionEvent.Started a b] ↔
      x = (a, b) ∨ x ∈ contacts) ∧
    (x ∈ collision_system contacts [CollisionEvent.Stopped a b] ↔
      x ∈ contacts ∧ x ≠ (a, b)) ∧
    ((a, b) ∉ contacts →
      collision_system contacts [CollisionEvent.Stopped a b] = contacts) := by
  refine ⟨?_, ?_, ?_⟩
  · simp [collision_system, collision_step, List.mem_insert_iff]
  · show x ∈ contacts.erase (a, b) ↔ x ∈ contacts ∧ x ≠ (a, b)
    rw [List.Nodup.mem_erase_iff hnd]
    tauto
  · intro h
    show contacts.erase (a, b) = contacts
    exact List.erase_of_not_mem h

/-- C9 witness: removing the pair in the reported order does clear it. -/
theorem contact_tracker_semantics_witness :
    (1, 2) ∈ collision_system [(1, 2)] [CollisionEvent.Stopped 1 2] ↔
      (1, 2) ∈ ([(1, 2)] : List (Entity × Entity)) ∧
        ((1 : Entity), (2 : Entity)) ≠ (1, 2) :=
  (contact_tracker_semantics [(1, 2)] 1 2 (1, 2) (by decide)).2.1

/-- C1: a queued despawn of a handle that is already gone is a silent no-op
(first conjunct) and despawning twice equals despawning once (second);
applying any queue of despawns never fails (third); and a whole
`squash_balls` pass never panics as long as every contact member existed at
the start of the pass — in particular when a contact references a ball whose
destruction was queued by an earlier merge of the same pass, because Bevy
commands are deferred and the live entity set does not change mid-pass
(fourth). -/
theorem despawn_idempotent_no_panic :
    (∀ (store : BallStore) (e : Entity), store e = none →
      applyCmd store (Cmd.despawn e) = some store) ∧
    (∀ (store : BallStore) (e : Entity),
      applyCmds store [Cmd.despawn e, Cmd.despawn e] =
        applyCmds store [Cmd.despawn e]) ∧
    (∀ (store : BallStore) (ds : List Entity),
      (applyCmds store (ds.map Cmd.despawn)).isSome = true) ∧
    (∀ (store : BallStore) (barriers live : List Entity)
      (contacts : List (Entity × Entity)) (game : Game),
      (∀ c ∈ contacts, c.1 ∈ live ∧ c.2 ∈ live) →
      (squash_balls store barriers live contacts game).isSome = true) := by
  refine ⟨?_, ?_, ?_, ?_⟩
  · intro store e h
    show some (fun x => if x = e then none else store x) = some store
    congr 1
    funext x
    by_cases hx : x = e
    · rw [if_pos hx, hx, h]
    · rw [if_neg hx]
  · intro store e
    simp only [applyCmds, applyCmd]
    congr 1
    funext x
    by_cases hx : x = e <;> simp [hx]
  · intro store ds
    induction ds generalizing store with
    | nil => simp [applyCmds]
    | cons d rest ih => simpa [applyCmds, applyCmd] using ih _
  · intro store barriers live contacts game h
    unfold squash_balls
    rw [Option.isSome_map']
    exact squashLoop_isSome store barriers live contacts (initAcc game) h

/-- C1 witness: the chain pass whose second contact references ball 1, already
queued for despawn by the first merge, completes without a panic; and a
despawn of the absent handle 5 leaves the store untouched. -/
theorem despawn_idempotent_no_panic_witness :
    (squash_balls cexStore [] [0, 1, 2] [(0, 1), (1, 2)] cexGame).isSome = true ∧
    applyCmd cexStore (Cmd.despawn 5) = some cexStore :=
  ⟨despawn_idempotent_no_panic.2.2.2 cexStore [] [0, 1, 2] [(0, 1), (1, 2)]
      cexGame (by decide),
    despawn_idempotent_no_panic.1 cexStore 5 rfl⟩

/-- C6: over any pass, the kept balls of the queued merges are pairwise
distinct — a ball is the growth target of at most one merge per tick — and
every equal-level `Simple` contact that did not itself merge stays in the
active contact set for a later tick. -/
theorem visited_once (store : BallStore) (barriers live : List Entity)
    (contacts : List (Entity × Entity)) (game : Game) (res : SquashResult)
    (h : squash_balls store barriers live contacts game = some res) :
    (growthTargets res.cmds).Nodup ∧
    (∀ c ∈ contacts, isEqualSimplePair store c → c ∉ res.merged →
      c ∈ res.contacts) := by
  unfold squash_balls at h
  obtain ⟨acc, hacc, hres⟩ := Option.map_eq_some'.mp h
  have hinv := (squashLoop_inv store barriers live contacts (initAcc game) acc
    hacc (initAcc_inv store game)).1
  constructor
  · rw [← hres]
    exact hinv.1
  · intro c hc hpair hnm
    rw [← hres] at hnm ⊢
    have hnr : c ∉ acc.toRemove := fun hr =>
      (hinv.2.2 c hr).elim (fun hm => hnm hm) (fun hns => hns hpair)
    simp only [List.mem_filter, decide_eq_true_eq]
    exact ⟨hc, hnr⟩

/-- C6 witness: in the pass over `[(0,1),(0,2)]` the only growth target is
ball 0, and the deferred equal-level contact `(0,2)` stays active. -/
theorem visited_once_witness :
    (growthTargets defRes.cmds).Nodup ∧ (0, 2) ∈ defRes.contacts := by
  have h := visited_once cexStore [] [0, 1, 2] [(0, 1), (0, 2)] cexGame defRes
    (by decide)
  exact ⟨h.1, h.2 (0, 2) (by decide)
    ⟨1, ⟨0, 0⟩, ⟨0, 10⟩, by decide, by decide⟩ (by decide)⟩

/-- C7: `squash_balls` never decreases strikes and never touches the over
flag; `check_game_state` flips over to true exactly when strikes have
reached `STRIKE_LIMIT` and the game was not already over (so the transition
false→true happens exactly once, on the first tick with
`strikes ≥ STRIKE_LIMIT`, and `over` then stays true), emitting the one-shot
game-over event precisely at that transition; `update_score_system` touches
neither strikes nor over; only `restart_game_system` clears them. -/
theorem strikes_over_transitions :
    (∀ (store : BallStore) (barriers live : List Entity)
      (contacts : List (Entity × Entity)) (game : Game) (res : SquashResult),
      squash_balls store barriers live contacts game = some res →
      game.strikes ≤ res.game.strikes ∧ res.game.over = game.over) ∧
    (∀ g : Game,
      (check_game_state g).1.over = (g.over || decide (STRIKE_LIMIT ≤ g.strikes)) ∧
      (check_game_state g).1.strikes = g.strikes ∧
      (check_game_state g).1.score = g.score ∧
      ((check_game_state g).2 = true ↔
        g.over = false ∧ STRIKE_LIMIT ≤ g.strikes)) ∧
    (∀ g : Game, (update_score_system g).strikes = g.strikes ∧
      (update_score_system g).over = g.over) ∧
    (∀ g : Game, (restart_game_system g).over = false ∧
      (restart_game_system g).strikes = 0) := by
  refine ⟨?_, ?_, ?_, ?_⟩
  · intro store barriers live contacts game res h
    unfold squash_balls at h
    obtain ⟨acc, hacc, hres⟩ := Option.map_eq_some'.mp h
    have hmono := (squashLoop_inv store barriers live contacts (initAcc game) acc
      hacc (initAcc_inv store game)).2
    constructor
    · rw [← hres]
      exact hmono
    · rw [← hres]
  · intro g
    unfold check_game_state
    by_cases h : STRIKE_LIMIT ≤ g.strikes ∧ g.over = false
    · rw [if_pos h]
      simp [h.1, h.2]
    · rw [if_neg h]
      cases hov : g.over with
      | false =>
        rw [hov] at h
        have hns : ¬ STRIKE_LIMIT ≤ g.strikes := fun hs => h ⟨hs, rfl⟩
        simp [hov, hns]
      | true => simp [hov]
  · intro g
    unfold update_score_system
    by_cases h : 10 ≤ g.score - g.interpolated_score <;> simp [h]
  · intro g
    exact ⟨rfl, rfl⟩

/-- C7 witness: a pass of two merges keeps strikes at 0 and the over flag
unchanged. -/
theorem strikes_over_transitions_witness :
    cexGame.strikes ≤ defRes.game.strikes ∧ defRes.game.over = cexGame.over :=
  strikes_over_transitions.1 cexStore [] [0, 1, 2] [(0, 1), (0, 2)] cexGame
    defRes (by decide)

/-- C10: the visited marker set of a pass is exactly the set of kept balls
(growth targets) — a ball chosen only as the removed member is never marked
visited — and on the chain `[(0,1),(1,2)]` ball 1 is both despawned by the
first merge and kept by the second, with the pass crediting the score for
both merges (22 + 22). -/
theorem visited_only_kept :
    (∀ (store : BallStore) (barriers live : List Entity)
      (contacts : List (Entity × Entity)) (game : Game) (res : SquashResult),
      squash_balls store barriers live contacts game = some res →
      ∀ e, e ∈ res.visited ↔ e ∈ growthTargets res.cmds) ∧
    squash_balls cexStore [] [0, 1, 2] [(0, 1), (1, 2)] cexGame = some chainRes ∧
    Cmd.despawn 1 ∈ chainRes.cmds ∧
    (1 : Entity) ∈ growthTargets chainRes.cmds ∧
    chainRes.game.score = cexGame.score + 22 + 22 := by
  refine ⟨?_, by decide, by decide, by decide, by decide⟩
  intro store barriers live contacts game res h
  unfold squash_balls at h
  obtain ⟨acc, hacc, hres⟩ := Option.map_eq_some'.mp h
  have hinv := (squashLoop_inv store barriers live contacts (initAcc game) acc
    hacc (initAcc_inv store game)).1
  intro e
  rw [← hres]
  exact (hinv.2.1 e).symm

/-- C10 witness: in the chain pass, ball 1 is visited exactly because it is a
growth target. -/
theorem visited_only_kept_witness :
    (1 : Entity) ∈ chainRes.visited ↔ (1 : Entity) ∈ growthTargets chainRes.cmds :=
  visited_only_kept.1 cexStore [] [0, 1, 2] [(0, 1), (1, 2)] cexGame chainRes
    (by decide) 1

end Claims

end Bingle
